import Mathlib

/-!
Shallow embedding of the Inkoro print-queue engine.

The repository contains several queue variants; each is embedded from its
own source file:

* `src/src/printer/printerManager.js` — `PrinterManager` (printer discovery
  and selection) plus a batching `PrintQueue` (`_createBatches`,
  `_processBatches`, `_executeJob`, `cancelJob`, `retryJob`).
* `src/src/queue/printQueue.js` — in-memory `PrintQueue` (`addJob`,
  `cancelJob`).
* `src/src/print/queue.js` — persistent `PrintQueue` (`addJob`,
  `processNextJob`, `updateJobStatus`, `retryJob`, `getStats`, ...).
* `src/unnamed/part_003` — `JobManager` (`retryJob` with a retry cap).

JavaScript objects with possibly-undefined fields are embedded with
`Option`; in-place mutation is embedded as explicit state passing;
functions that `throw` return `Except String`.  Wall-clock timestamps
(`updatedAt`) are threaded only where a claim depends on them.
-/

namespace Inkoro

/-- Job status strings used across the source files. -/
inductive Status
  | queued
  | processing
  | completed
  | failed
  | cancelled
  | pending
  | created
  deriving DecidableEq, Repr

/-- Structured print instructions (`job.instructions` /
`job.data.instructions`).  Every field may be `undefined` in the source, so
each is an `Option`. -/
structure Instr where
  copies : Option Nat := none
  paperSize : Option String := none
  paperType : Option String := none
  colorPages : Option (List Nat) := none
  priority : Option String := none
  quality : Option String := none
  deriving DecidableEq, Repr

/-- JavaScript `a || b` for strings: `b` when `a` is `undefined` or the
empty string (both falsy). -/
def jsOrStr (a : Option String) (b : String) : String :=
  match a with
  | none => b
  | some s => if s = "" then b else s

/-- JavaScript `a || b` for numbers: `b` when `a` is `undefined` or `0`. -/
def jsOrNat (a : Option Nat) (b : Nat) : Nat :=
  match a with
  | none => b
  | some n => if n = 0 then b else n

/-- One configured printer as stored in
`PrinterManager.availablePrinters` (`printerManager.js:15-24,74-78`):
its map key (`name`), `brand`, `capabilities` list, and the discovered
`available` flag. -/
structure PrinterCfg where
  name : String
  brand : String
  capabilities : List String
  available : Bool
  deriving DecidableEq, Repr

/-- The `PrinterManager` state a selection reads: the
`availablePrinters` map in insertion order and `defaultPrinter`
(possibly `null`). -/
structure PMState where
  availablePrinters : List PrinterCfg
  defaultPrinter : Option String
  deriving DecidableEq, Repr

/-- Embeds `printerManager.js:192`: `needsColor = colorPages.length > 0 ||
paperType === 'photo'`. -/
def needsColor (colorPages : List Nat) (paperType : String) : Bool :=
  decide (0 < colorPages.length) || paperType == "photo"

/-- Embeds `printerManager.js:195-206`: the `suitablePrinters` loop keeps
available printers, and when color is needed only those whose
capability list contains `'color'`. -/
def suitablePrinters (printers : List PrinterCfg) (nc : Bool) : List PrinterCfg :=
  printers.filter (fun p => p.available && (!nc || p.capabilities.contains "color"))

/-- Destructuring default `colorPages = []` applied to a possibly
undefined `options` record (`printerManager.js:191`). -/
def instrColorPages (oi : Option Instr) : List Nat :=
  (oi.bind (fun i => i.colorPages)).getD []

/-- Destructuring default `paperType = 'plain'`
(`printerManager.js:191`). -/
def instrPaperType (oi : Option Instr) : String :=
  (oi.bind (fun i => i.paperType)).getD "plain"

/-- Choice among the suitable printers
(`printerManager.js:208-229`): when none is suitable fall back to
`defaultPrinter`; for color jobs prefer the first Epson, for monochrome
jobs the first Canon; otherwise take the first suitable printer. -/
def selectFromSuitable (defaultPrinter : Option String) (nc : Bool) :
    List PrinterCfg → Option String
  | [] => defaultPrinter
  | s :: rest =>
    if nc then
      match (s :: rest).filter (fun p => p.brand == "epson") with
      | e :: _ => some e.name
      | [] => some s.name
    else
      match (s :: rest).filter (fun p => p.brand == "canon") with
      | c :: _ => some c.name
      | [] => some s.name

/-- Embeds `PrinterManager.selectBestPrinter` (`printerManager.js:187-235`):
compute the color requirement, filter the suitable printers and choose
among them.  The internal try/catch never fires in this pure embedding
(the loop body is total). -/
def selectBestPrinter (pm : PMState) (oi : Option Instr) : Option String :=
  selectFromSuitable pm.defaultPrinter
    (needsColor (instrColorPages oi) (instrPaperType oi))
    (suitablePrinters pm.availablePrinters
      (needsColor (instrColorPages oi) (instrPaperType oi)))

/-- The eligible printer set of a job, per the suitability filter of
`selectBestPrinter`. -/
def jobEligible (pm : PMState) (oi : Option Instr) : List PrinterCfg :=
  suitablePrinters pm.availablePrinters
    (needsColor (instrColorPages oi) (instrPaperType oi))

/-- Embeds `job.data` as stored by the batching and in-memory queues: a document
reference and the (possibly absent) instruction record. -/
structure JobData where
  fileId : String
  instructions : Option Instr
  deriving DecidableEq, Repr

/-- A job record of the batching `PrintQueue`
(`printerManager.js:394-415`): `id`, `status`, `progress`, `data`, and the
mutable `error` / `result` fields.  Timestamps are omitted. -/
structure Job where
  id : Nat
  status : Status
  progress : Nat := 0
  data : JobData
  error : Option String := none
  result : Option String := none
  deriving DecidableEq, Repr

/-- Rendering of the selected printer inside the template literal of the
batch key: JavaScript prints `null` for a null value. -/
def printerNameString : Option String → String
  | some s => s
  | none => "null"

/-- The batch key of `_createBatches` (`printerManager.js:448-449`):
the template string over the selected printer,
`instructions.paperType || 'default'` and
`instructions.quality || 'normal'`.  Reading `.paperType` on an undefined
`instructions` record throws, which the embedding returns as `none`
(caught at `printerManager.js:455-459`). -/
def batchKeyOf (pm : PMState) (j : Job) : Option String :=
  match j.data.instructions with
  | none => none
  | some i =>
    some (printerNameString (selectBestPrinter pm (some i)) ++ ":" ++
      jsOrStr i.paperType "default" ++ ":" ++ jsOrStr i.quality "normal")

/-- The catch branch of `_createBatches` (`printerManager.js:455-459`):
the job is marked failed with a fixed error message. -/
def failBatchJob (j : Job) : Job :=
  { j with status := Status.failed,
           error := some "Failed to determine printer or batch." }

/-- Append a job to the batch map under a key, preserving JavaScript
`Map` insertion order (`printerManager.js:451-454`). -/
def addToBatch : List (String × List Job) → String → Job → List (String × List Job)
  | [], k, j => [(k, [j])]
  | (k', l) :: rest, k, j =>
    if k' = k then (k', l ++ [j]) :: rest
    else (k', l) :: addToBatch rest k j

/-- Loop body of `_createBatches` (`printerManager.js:443-463`), with the
batch map threaded as an accumulator.  The second component is the list of
candidate jobs after the call, in their original order: jobs whose key
computation throws come back marked failed, all others unchanged. -/
def createBatchesAux (pm : PMState) :
    List (String × List Job) → List Job → List (String × List Job) × List Job
  | acc, [] => (acc, [])
  | acc, j :: js =>
    match batchKeyOf pm j with
    | some k =>
      let r := createBatchesAux pm (addToBatch acc k j) js
      (r.1, j :: r.2)
    | none =>
      let r := createBatchesAux pm acc js
      (r.1, failBatchJob j :: r.2)

/-- Embeds `PrintQueue._createBatches` (`printerManager.js:443-463`). -/
def createBatches (pm : PMState) (jobs : List Job) :
    List (String × List Job) × List Job :=
  createBatchesAux pm [] jobs

/-- Lookup of a batch by key in the batch map. -/
def lookupBatch (bs : List (String × List Job)) (k : String) : Option (List Job) :=
  (bs.find? (fun b => b.1 = k)).map (fun b => b.2)

/-- External effects of one execution: `documentManager.getDocument`
(`none` embeds both a null result and a thrown lookup error, whose
message is `Document not found` after `_executeJob`'s own check) and
`printerManager.printDocument` (an `Except` capturing selection,
validation and command failures by their message). -/
structure ExecEnv where
  document : String → Option String
  print : String → Option Instr → Except String String

/-- Embeds `PrintQueue._executeJob` (`printerManager.js:465-494`): mark the job
processing, resolve its document, print it; on success mark completed with
progress 100, on any thrown error mark failed with the message. -/
def executeJob (env : ExecEnv) (j : Job) : Job :=
  let j1 := { j with status := Status.processing }
  match env.document j.data.fileId with
  | none => { j1 with status := Status.failed, error := some "Document not found" }
  | some path =>
    match env.print path j.data.instructions with
    | Except.error msg => { j1 with status := Status.failed, error := some msg }
    | Except.ok res =>
      { j1 with status := Status.completed, progress := 100, result := some res }

/-- The per-job loop of `_processBatches` over one batch
(`printerManager.js:430-435`): every job of the batch is executed in
order, each by `_executeJob`, which never throws (its body is wrapped in
try/catch), so a failure of one job never stops the loop. -/
def processBatchJobs (env : ExecEnv) (batch : List Job) : List Job :=
  batch.map (executeJob env)

/-- State of the batching `PrintQueue`: the `jobs` map in insertion order
and the `isProcessing` single-flight flag. -/
structure BatchQState where
  jobs : List Job
  isProcessing : Bool
  deriving Repr

/-- End state of one job after a full batch cycle.  A queued job without a
computable batch key is failed by `_createBatches`; every other queued job
is batched exactly once and executed by `_executeJob`, whose result
depends only on the job and the environment; non-queued jobs are not
touched.  Because the JavaScript queue holds the very objects mutated in
place, this is the per-job effect of the cycle on the `jobs` map. -/
def tickJobResult (env : ExecEnv) (pm : PMState) (j : Job) : Job :=
  if j.status = Status.queued then
    match batchKeyOf pm j with
    | none => failBatchJob j
    | some _ => executeJob env j
  else j

/-- Embeds `PrintQueue._processBatches` (`printerManager.js:417-441`): when
`isProcessing` is set the call returns at once, selecting nothing and
executing nothing; otherwise the queued jobs are batched and every batch
is executed, and the flag is reset by the `finally` block.  The second
component is the list of batches built (empty when the tick was
skipped). -/
def processBatchesTick (env : ExecEnv) (pm : PMState) (st : BatchQState) :
    BatchQState × List (String × List Job) :=
  if st.isProcessing then (st, [])
  else
    let queued := st.jobs.filter (fun j => j.status = Status.queued)
    let batches := (createBatches pm queued).1
    ({ jobs := st.jobs.map (tickJobResult env pm), isProcessing := false }, batches)

/-- A `statusUpdated` event payload (`printerManager.js:556`). -/
structure StatusEvent where
  jobId : Nat
  status : Status
  deriving DecidableEq, Repr

/-- State shared by the in-memory `PrintQueue` variants
(`queue/printQueue.js:10-11`, `printerManager.js:385-386`): the `jobs`
map in insertion order and the id counter. -/
structure MemQState where
  jobs : List Job
  nextJobId : Nat
  deriving DecidableEq, Repr

/-- Replace the first job with the given id, leaving the rest unchanged
(in-place mutation of the object found in the map). -/
def replaceFirstJob : List Job → Nat → Job → List Job
  | [], _, _ => []
  | x :: xs, i, j => if x.id = i then j :: xs else x :: replaceFirstJob xs i j

/-- Embeds `PrintQueue.addJob` of the in-memory variant
(`queue/printQueue.js:15-35`): allocate the next id, build the record
with status `queued` and progress `0`, store it — and then the
un-awaited `this.processJob(jobId)` of line 28 runs synchronously up to
its first `await`, setting the stored record's status to `processing`
(line 42) before `addJob` returns.  The returned reference is that same
mutated record; the rest of `processJob` (document fetch, print,
terminal transition) happens only after `addJob` has returned and is
not part of this step. -/
def addJobMem (st : MemQState) (jobData : JobData) : Job × MemQState :=
  let created : Job := { id := st.nextJobId, status := Status.queued, progress := 0,
                         data := jobData, error := none, result := none }
  let job : Job := { created with status := Status.processing }
  (job, { jobs := st.jobs ++ [job], nextJobId := st.nextJobId + 1 })

/-- Embeds `PrintQueue.cancelJob` (`queue/printQueue.js:99-112` and, with the
extra `statusUpdated` emission returned here as the event,
`printerManager.js:544-558`): unknown ids and completed/failed jobs throw;
any other job — queued, processing, or already cancelled — is set to
`cancelled` and a `statusUpdated` event is emitted. -/
def cancelJobMem (st : MemQState) (jobId : Nat) :
    Except String (MemQState × StatusEvent) :=
  match st.jobs.find? (fun j => j.id = jobId) with
  | none => Except.error "Job not found"
  | some job =>
    if job.status = Status.completed ∨ job.status = Status.failed then
      Except.error "Cannot cancel completed or failed job"
    else
      let j := { job with status := Status.cancelled }
      Except.ok ({ st with jobs := replaceFirstJob st.jobs jobId j },
                 { jobId := jobId, status := Status.cancelled })

/-- Embeds `PrintQueue.retryJob` (`printerManager.js:560-576`): only jobs whose
status is `failed` or `cancelled` may be retried; the job is re-queued
with progress `0` and its error cleared.  No retry count is consulted or
changed. -/
def retryJobMem (st : MemQState) (jobId : Nat) : Except String (Job × MemQState) :=
  match st.jobs.find? (fun j => j.id = jobId) with
  | none => Except.error "Job not found"
  | some job =>
    if job.status ≠ Status.failed ∧ job.status ≠ Status.cancelled then
      Except.error "Can only retry failed or cancelled jobs"
    else
      let j := { job with status := Status.queued, progress := 0, error := none }
      Except.ok (j, { st with jobs := replaceFirstJob st.jobs jobId j })

/-- The slice of a `JobManager` job record (`part_003:14-25`) that
`retryJob` reads and writes. -/
structure HistJob where
  status : Status
  retryCount : Nat
  deriving DecidableEq, Repr

/-- Embeds `JobManager.maxRetries` (`part_003:11`). -/
def jmMaxRetries : Nat := 3

/-- Embeds `JobManager.retryJob` (`part_003:53-69`): the argument is the
`jobHistory` lookup (`none` when the job is not in history — history holds
every job moved there on a `completed`, `failed` or `cancelled` status,
`part_003:46-48`).  The guard rejects only a missing job or
`retryCount >= maxRetries`; otherwise the count is bumped and the job is
set back to `pending`, with no check of which terminal status it had. -/
def retryJobJM (hist : Option HistJob) : Except String HistJob :=
  match hist with
  | none => Except.error "Job cannot be retried"
  | some j =>
    if jmMaxRetries ≤ j.retryCount then Except.error "Job cannot be retried"
    else Except.ok { j with retryCount := j.retryCount + 1, status := Status.pending }

/-- A job record of the persistent `PrintQueue` (`print/queue.js:69-92`).
`createdAt` is the submission timestamp, `priority` the computed integer
score.  Timestamp updates (`updatedAt`) are omitted. -/
structure PQJob where
  id : String
  status : Status := Status.pending
  priority : Nat := 0
  estimatedPages : Nat := 1
  progress : Nat := 0
  createdAt : Nat := 0
  fileId : String := ""
  instructions : Option Instr := none
  sender : Option String := none
  acceptedBy : Option String := none
  error : Option String := none
  result : Option String := none
  retryCount : Nat := 0
  deriving DecidableEq, Repr

/-- State of the persistent `PrintQueue` (`print/queue.js:10-13`): the
active `queue`, the `completedJobs` archive and the `isProcessing`
single-flight flag. -/
structure PQState where
  queue : List PQJob
  completedJobs : List PQJob
  isProcessing : Bool
  deriving Repr

/-- Replace the first job with the given id (in-place mutation of the
object `Array.prototype.find` returned). -/
def replaceFirstPQ : List PQJob → String → PQJob → List PQJob
  | [], _, _ => []
  | x :: xs, i, j => if x.id = i then j :: xs else x :: replaceFirstPQ xs i j

/-- Embeds `PrintQueue.calculatePriority` (`print/queue.js:94-101`): urgent +3,
high +2, non-empty color pages +1, more than one copy +1. -/
def calculatePriority (oi : Option Instr) : Nat :=
  (if (oi.bind (fun i => i.priority)) = some "urgent" then 3 else 0) +
  (if (oi.bind (fun i => i.priority)) = some "high" then 2 else 0) +
  (if 0 < ((oi.bind (fun i => i.colorPages)).getD []).length then 1 else 0) +
  (if 1 < ((oi.bind (fun i => i.copies)).getD 0) then 1 else 0)

/-- Embeds `PrintQueue.estimatePages` (`print/queue.js:103-106`):
`job.instructions?.copies || 1`. -/
def estimatePages (oi : Option Instr) : Nat :=
  jsOrNat (oi.bind (fun i => i.copies)) 1

/-- A data-only job request for the persistent queue: a document
reference, an optional instruction record and a sender, with no
same-named fields that the object spread of `print/queue.js:77` could
turn into overrides of the generated `id`, `status`, `priority`,
`createdAt` or `retryCount`.  Requests of the `FullJobReq` form below —
what the in-repo caller actually passes — embed via `JobReq.toFull`. -/
structure JobReq where
  fileId : String := ""
  instructions : Option Instr := none
  sender : Option String := none
  deriving DecidableEq, Repr

/-- A full job-record request to the persistent queue's `addJob`.  The
only in-repo caller of `print/queue.js`'s `addJob` is the `JobManager`
(`part_003:31` and `part_003:67`), which passes complete job records, so
the object spread `...job` of `print/queue.js:77` overrides the
generated `id`, `status` (for example `created`), `priority`,
`createdAt` and `retryCount` with the request's fields; `none` leaves
the generated value in place.  Fields the repository's callers never
carry (`progress`, `estimatedPages`) are not represented. -/
structure FullJobReq where
  fileId : String := ""
  instructions : Option Instr := none
  sender : Option String := none
  id : Option String := none
  status : Option Status := none
  priority : Option Nat := none
  createdAt : Option Nat := none
  retryCount : Option Nat := none
  deriving DecidableEq, Repr

/-- View of a data-only request as a full request with no overrides. -/
def JobReq.toFull (r : JobReq) : FullJobReq :=
  { fileId := r.fileId, instructions := r.instructions, sender := r.sender }

/-- The queue item built at `print/queue.js:70-79`: generated fields
first, then the request's spread fields override the same-named ones. -/
def newPQJob (newId : String) (now : Nat) (req : FullJobReq) : PQJob :=
  { id := req.id.getD newId,
    status := req.status.getD Status.pending,
    priority := req.priority.getD (calculatePriority req.instructions),
    estimatedPages := estimatePages req.instructions,
    createdAt := req.createdAt.getD now,
    progress := 0,
    fileId := req.fileId, instructions := req.instructions,
    sender := req.sender,
    retryCount := req.retryCount.getD 0 }

/-- Embeds `PrintQueue.updateJobStatus` (`print/queue.js:180-198`): find the job
in the active queue (`none` leaves the state unchanged and returns
`false`), overwrite its `status`, `error` and `result`, and when the new
status is `completed` or `failed` remove it from the queue and push it
onto `completedJobs`. -/
def updateJobStatusPQ (st : PQState) (jobId : String) (status : Status)
    (error : Option String) (result : Option String) : PQState × Bool :=
  match st.queue.find? (fun j => j.id = jobId) with
  | none => (st, false)
  | some job =>
    let j := { job with status := status, error := error, result := result }
    if status = Status.completed ∨ status = Status.failed then
      ({ st with queue := (replaceFirstPQ st.queue jobId j).filter (fun x => ¬ x.id = jobId),
                 completedJobs := st.completedJobs ++ [j] }, true)
    else ({ st with queue := replaceFirstPQ st.queue jobId j }, true)

/-- Embeds `PrintQueue.updateJobProgress` (`print/queue.js:200-209`). -/
def updateJobProgressPQ (st : PQState) (jobId : String) (p : Nat) : PQState :=
  match st.queue.find? (fun j => j.id = jobId) with
  | none => st
  | some job => { st with queue := replaceFirstPQ st.queue jobId { job with progress := p } }

/-- The print options `processJob` assembles (`print/queue.js:152-158`),
with the source's defaulting of each field. -/
def printOptionsOf (j : PQJob) : Instr :=
  { copies := some (jsOrNat (j.instructions.bind (fun i => i.copies)) 1),
    paperSize := some ((j.instructions.bind (fun i => i.paperSize)).getD "a4"),
    paperType := some ((j.instructions.bind (fun i => i.paperType)).getD "plain"),
    colorPages := some ((j.instructions.bind (fun i => i.colorPages)).getD []),
    priority := some ((j.instructions.bind (fun i => i.priority)).getD "normal"),
    quality := none }

/-- Embeds `PrintQueue.processJob` (`print/queue.js:135-178`): set the job
processing, resolve the document, advance progress, print; mark completed
on success, failed with the thrown message otherwise. -/
def processJobPQ (env : ExecEnv) (st : PQState) (j : PQJob) : PQState :=
  match env.document j.fileId with
  | none =>
    (updateJobStatusPQ (updateJobStatusPQ st j.id Status.processing none none).1
      j.id Status.failed (some "Document not found") none).1
  | some path =>
    match env.print path (some (printOptionsOf j)) with
    | Except.error msg =>
      (updateJobStatusPQ
        (updateJobProgressPQ
          (updateJobProgressPQ
            (updateJobStatusPQ st j.id Status.processing none none).1 j.id 25)
          j.id 50)
        j.id Status.failed (some msg) none).1
    | Except.ok res =>
      (updateJobStatusPQ
        (updateJobProgressPQ
          (updateJobProgressPQ
            (updateJobProgressPQ
              (updateJobStatusPQ st j.id Status.processing none none).1 j.id 25)
            j.id 50)
          j.id 100)
        j.id Status.completed none (some res)).1

/-- Stable insertion of a job in front of the first element whose
priority is not larger — together with `sortByPriorityDesc` this realizes
the ECMAScript-mandated stable `Array.prototype.sort` under the
comparator `(a, b) => b.priority - a.priority`
(`print/queue.js:117`). -/
def insertDesc (j : PQJob) : List PQJob → List PQJob
  | [] => [j]
  | k :: ks => if k.priority ≤ j.priority then j :: k :: ks else k :: insertDesc j ks

/-- Stable sort of the queue by priority descending
(`print/queue.js:117`): equal-priority elements keep their array
order. -/
def sortByPriorityDesc : List PQJob → List PQJob
  | [] => []
  | j :: js => insertDesc j (sortByPriorityDesc js)

/-- Synchronous prefix of `processNextJob` (`print/queue.js:108-125` up
to the first suspension inside `updateJobStatus`): unless a run is in
flight or the queue is empty, set `isProcessing`, sort the queue in
place and mark the sorted head `processing` (with `error` and `result`
nulled, `print/queue.js:184-186`).  This is what has already happened
when an un-awaited `processNextJob()` call returns control to its
caller; the remainder of the run is asynchronous. -/
def kickQueue (st : PQState) : PQState :=
  if st.isProcessing || st.queue.isEmpty then st
  else
    match sortByPriorityDesc st.queue with
    | [] => st
    | j :: rest =>
      { (updateJobStatusPQ { st with queue := j :: rest }
          j.id Status.processing none none).1 with isProcessing := true }

/-- Embeds `PrintQueue.addJob` of the persistent variant
(`print/queue.js:69-92`): build the queue item (generated fields
overridden by the request's spread fields), push it, and — when no run
is in flight — eagerly call `processNextJob` (lines 87-89), whose
synchronous prefix marks the sorted head `processing` before `addJob`
returns.  The returned reference is the stored object, so when the new
item heads the sorted queue (in particular on an empty queue) the
record comes back as `processing`; record equality with the new item
stands in for object identity, exact whenever the queue holds no
duplicate of the fresh record.  The id and timestamp come from the
clock and are passed in; the asynchronous remainder of the kicked run
is not part of this step. -/
def addJobPQFull (st : PQState) (newId : String) (now : Nat) (req : FullJobReq) :
    PQJob × PQState :=
  if st.isProcessing then
    (newPQJob newId now req, { st with queue := st.queue ++ [newPQJob newId now req] })
  else
    ((match sortByPriorityDesc (st.queue ++ [newPQJob newId now req]) with
      | [] => newPQJob newId now req
      | j :: _ =>
        if j = newPQJob newId now req then
          { newPQJob newId now req with status := Status.processing }
        else newPQJob newId now req),
     kickQueue { st with queue := st.queue ++ [newPQJob newId now req] })

/-- The persistent `addJob` on a data-only request (no spread
overrides). -/
def addJobPQ (st : PQState) (newId : String) (now : Nat) (req : JobReq) :
    PQJob × PQState :=
  addJobPQFull st newId now req.toFull

/-- Embeds `PrintQueue.processNextJob` (`print/queue.js:108-133`): return at
once when a run is in flight or the queue is empty; otherwise sort the
queue in place, take its head as the candidate and run `processJob` on
it; the flag is reset in the `finally` block.  The delayed
re-invocation of line 131 is a separate future tick. -/
def processNextJobTick (env : ExecEnv) (st : PQState) : PQState :=
  if st.isProcessing || st.queue.isEmpty then st
  else
    let sorted := sortByPriorityDesc st.queue
    match sorted with
    | [] => { st with queue := sorted, isProcessing := false }
    | j :: _ =>
      { processJobPQ env { st with queue := sorted } j with isProcessing := false }

/-- Embeds `PrintQueue.retryJob` of the persistent variant
(`print/queue.js:211-237`): find the job among `completedJobs` (`none`
leaves the state unchanged), reset it to `pending` with the retry count
bumped, remove it from the archive and push it back on the queue. -/
def retryJobPQ (st : PQState) (jobId : String) : PQState :=
  match st.completedJobs.find? (fun j => j.id = jobId) with
  | none => st
  | some job =>
    let j := { job with
               status := Status.pending, error := none, result := none,
               progress := 0, retryCount := job.retryCount + 1 }
    { st with completedJobs := st.completedJobs.filter (fun x => ¬ x.id = jobId),
              queue := st.queue ++ [j] }

/-- Embeds `PrintQueue.removeJob` (`print/queue.js:239-253`). -/
def removeJobPQ (st : PQState) (jobId : String) : PQState :=
  { st with queue := st.queue.filter (fun x => ¬ x.id = jobId),
            completedJobs := st.completedJobs.filter (fun x => ¬ x.id = jobId) }

/-- Embeds `PrintQueue.acceptJob` (`print/queue.js:255-266`): only a `pending`
or `queued` job in the active queue may be accepted; it becomes
`processing` and is stamped with the operator identity. -/
def acceptJobPQ (st : PQState) (jobId : String) (acceptedBy : Option String) : PQState :=
  match st.queue.find? (fun j => j.id = jobId) with
  | none => st
  | some job =>
    if job.status = Status.pending ∨ job.status = Status.queued then
      { st with queue := replaceFirstPQ st.queue jobId
                  ({ job with status := Status.processing, acceptedBy := acceptedBy }) }
    else st

/-- Embeds `PrintQueue.cleanupOldJobs` (`print/queue.js:278-286`): drop archived
jobs older than the retention window. -/
def cleanupOldJobsPQ (st : PQState) (now maxAge : Nat) : PQState :=
  { st with completedJobs := st.completedJobs.filter (fun j => now - j.createdAt < maxAge) }

/-- The queue statistics record (`print/queue.js:268-276`). -/
structure Stats where
  total : Nat
  pending : Nat
  processing : Nat
  completed : Nat
  failed : Nat
  deriving DecidableEq, Repr

/-- Embeds `PrintQueue.getStats` (`print/queue.js:268-276`): `pending` and
`processing` are counted over the active queue only, `completed` and
`failed` over `completedJobs` only. -/
def getStats (st : PQState) : Stats :=
  { total := st.queue.length + st.completedJobs.length,
    pending := (st.queue.filter (fun j => j.status = Status.pending)).length,
    processing := (st.queue.filter (fun j => j.status = Status.processing)).length,
    completed := (st.completedJobs.filter (fun j => j.status = Status.completed)).length,
    failed := (st.completedJobs.filter (fun j => j.status = Status.failed)).length }

/-- The operations callable on the persistent queue, each embedding the
method of the same name. -/
inductive PQOp
  | add (newId : String) (now : Nat) (req : JobReq)
  | updStatus (id : String) (s : Status) (err : Option String) (res : Option String)
  | updProgress (id : String) (p : Nat)
  | retry (id : String)
  | remove (id : String)
  | accept (id : String) (acceptedBy : Option String)
  | cleanup (now maxAge : Nat)
  | tick (env : ExecEnv)

/-- Apply one operation to the persistent queue state. -/
def applyOp (st : PQState) : PQOp → PQState
  | PQOp.add newId now req => (addJobPQ st newId now req).2
  | PQOp.updStatus id s err res => (updateJobStatusPQ st id s err res).1
  | PQOp.updProgress id p => updateJobProgressPQ st id p
  | PQOp.retry id => retryJobPQ st id
  | PQOp.remove id => removeJobPQ st id
  | PQOp.accept id acceptedBy => acceptJobPQ st id acceptedBy
  | PQOp.cleanup now maxAge => cleanupOldJobsPQ st now maxAge
  | PQOp.tick env => processNextJobTick env st

/-- Apply a sequence of operations from left to right. -/
def applyOps (st : PQState) : List PQOp → PQState
  | [] => st
  | op :: ops => applyOps (applyOp st op) ops

/-- The empty starting state of the persistent queue
(`print/queue.js:25-27`). -/
def pqInit : PQState := { queue := [], completedJobs := [], isProcessing := false }

/-- The invariant of claim C10: the active queue holds no job whose
status is `completed` or `failed`. -/
def NoTerminalQueue (st : PQState) : Prop :=
  ∀ j ∈ st.queue, j.status ≠ Status.completed ∧ j.status ≠ Status.failed

/-!  Concrete states used to evaluate the claims on explicit inputs. -/

/-- A job whose execution is under way. -/
def procJob : Job :=
  { id := 1, status := Status.processing, data := { fileId := "a", instructions := none } }

/-- A job that has already been cancelled. -/
def cancJob : Job :=
  { id := 2, status := Status.cancelled, data := { fileId := "b", instructions := none } }

/-- A failed job record. -/
def failedJob : Job :=
  { id := 3, status := Status.failed, error := some "boom",
    data := { fileId := "c", instructions := none } }

/-- An in-memory queue holding a processing, a cancelled and a failed job. -/
def memSt : MemQState := { jobs := [procJob, cancJob, failedJob], nextJobId := 4 }

/-- A persistent-queue job submitted later but with equal priority. -/
def c3JobA : PQJob := { id := "a", priority := 1, createdAt := 10 }

/-- A persistent-queue job created earlier (for example re-queued by
`retryJob`, which pushes at the back) so that it sits after `c3JobA`. -/
def c3JobB : PQJob := { id := "b", priority := 1, createdAt := 5 }

/-- The lone monochrome Canon of the configuration
(`printerManager.js:22`), discovered available. -/
def canonPrinter : PrinterCfg :=
  { name := "Canon 6565", brand := "canon", capabilities := ["bw"], available := true }

/-- A color-capable Epson of the configuration (`printerManager.js:17`),
discovered available. -/
def epsonPrinter : PrinterCfg :=
  { name := "Epson 3250", brand := "epson", capabilities := ["color", "bw"], available := true }

/-- A manager state in which only the monochrome Canon is available and it
is also the default printer. -/
def pmCanonOnly : PMState :=
  { availablePrinters := [canonPrinter], defaultPrinter := some "Canon 6565" }

/-- A manager state in which only the Epson is available. -/
def pmEpsonOnly : PMState :=
  { availablePrinters := [epsonPrinter], defaultPrinter := some "Epson 3250" }

/-- A manager state with no printers and no default. -/
def pmEmpty : PMState := { availablePrinters := [], defaultPrinter := none }

/-- Instructions asking for glossy paper and no color pages. -/
def glossyInstr : Option Instr := some { paperType := some "glossy" }

/-- A queued job carrying no instruction record, on which the batch-key
computation of `_createBatches` throws. -/
def noInstrJob : Job :=
  { id := 1, status := Status.queued, data := { fileId := "f", instructions := none } }

/-- A queued color job on plain paper. -/
def c6ColorJob : Job :=
  { id := 1, status := Status.queued,
    data := { fileId := "f1",
              instructions := some { paperType := some "plain", colorPages := some [1] } } }

/-- A queued monochrome job on plain paper. -/
def c6MonoJob : Job :=
  { id := 2, status := Status.queued,
    data := { fileId := "f2", instructions := some { paperType := some "plain" } } }

/-- The key both plain-paper jobs map to when only the Epson is
available. -/
def c6Key : String := "Epson 3250:plain:normal"

/-- An environment in which only the document `good` resolves and every
print invocation succeeds. -/
def envGoodOnly : ExecEnv :=
  { document := fun fid => if fid = "good" then some "/tmp/good.pdf" else none,
    print := fun _ _ => Except.ok "sent" }

/-- A queued job whose document is missing. -/
def badDocJob : Job :=
  { id := 1, status := Status.queued, data := { fileId := "bad", instructions := none } }

/-- A queued job whose document resolves and prints. -/
def goodDocJob : Job :=
  { id := 2, status := Status.queued, data := { fileId := "good", instructions := none } }

/-- A batching-queue state whose single-flight flag is held. -/
def busyBatchSt : BatchQState := { jobs := [noInstrJob], isProcessing := true }

/-- A persistent-queue state whose single-flight flag is held. -/
def busyPQSt : PQState :=
  { queue := [c3JobA], completedJobs := [], isProcessing := true }

/-- The empty in-memory queue state. -/
def memInit : MemQState := { jobs := [], nextJobId := 1 }

/-- A full job-record request of the shape `JobManager.createJob` passes
(`part_003:14-31`): the spread overrides `id`, `status` (`created`),
`priority`, `createdAt` and `retryCount`. -/
def jmFullReq : FullJobReq :=
  { id := some "jm1", status := some Status.created, priority := some 2,
    createdAt := some 3, retryCount := some 0 }

/-- A job sitting in the persistent queue in state `processing`. -/
def c10Job : PQJob := { id := "a", status := Status.processing }

/-- A persistent-queue state holding just `c10Job`. -/
def c10St : PQState := { queue := [c10Job], completedJobs := [], isProcessing := false }

/-- A short operation sequence: submit a job, then complete it. -/
def c10Ops : List PQOp :=
  [PQOp.add "a" 0 { fileId := "f" }, PQOp.updStatus "a" Status.completed none none]

/-!  Theorems. -/

/-- C1 (counterexample): cancelling the processing job `procJob` succeeds,
and cancelling the already-cancelled job `cancJob` succeeds a second time
and emits another `statusUpdated` event — the claim says both must be
rejected with an invalid-state error and that no duplicate event is
emitted. -/
theorem cancelJob_accepts_processing_and_cancelled :
    (cancelJobMem memSt 1).isOk = true ∧
    cancelJobMem memSt 2 =
      Except.ok ({ memSt with
                   jobs := replaceFirstJob memSt.jobs 2
                             ({ cancJob with status := Status.cancelled }) },
                 { jobId := 2, status := Status.cancelled }) := by
  constructor
  · rfl
  · rfl

/-- C1 (amended): cancelJob throws `Job not found` on an unknown id and
`Cannot cancel completed or failed job` when the job's status is completed
or failed; every other job — queued, processing, or already cancelled — is
set to cancelled and one `statusUpdated` event is emitted, so cancelling an
already-cancelled job succeeds again with another event rather than being
rejected. -/
theorem cancelJob_characterization (st : MemQState) (jobId : Nat) :
    (st.jobs.find? (fun j => j.id = jobId) = none →
      cancelJobMem st jobId = Except.error "Job not found") ∧
    (∀ job, st.jobs.find? (fun j => j.id = jobId) = some job →
      ((job.status = Status.completed ∨ job.status = Status.failed) →
        cancelJobMem st jobId = Except.error "Cannot cancel completed or failed job") ∧
      (¬ (job.status = Status.completed ∨ job.status = Status.failed) →
        cancelJobMem st jobId =
          Except.ok ({ st with
                       jobs := replaceFirstJob st.jobs jobId
                                 ({ job with status := Status.cancelled }) },
                     { jobId := jobId, status := Status.cancelled }))) := by
  refine ⟨fun hnone => ?_, fun job hfound => ⟨fun hterm => ?_, fun hok => ?_⟩⟩
  · simp [cancelJobMem, hnone]
  · simp [cancelJobMem, hfound, hterm]
  · simp [cancelJobMem, hfound, hok]

/-- C1 (witness): the amended characterization applied to the concrete
state `memSt`: the failed job `failedJob` cannot be cancelled. -/
theorem cancelJob_characterization_witness :
    cancelJobMem memSt 3 = Except.error "Cannot cancel completed or failed job" :=
  ((cancelJob_characterization memSt 3).2 failedJob (by decide)).1 (Or.inr (by decide))

/-- C2 (counterexample): `JobManager.retryJob` re-queues a job found in
history with status `cancelled` and retry count `0` — the claim says a
retry from `cancelled` must be rejected. -/
theorem retryJob_accepts_cancelled :
    retryJobJM (some { status := Status.cancelled, retryCount := 0 }) =
      Except.ok { status := Status.pending, retryCount := 1 } := by
  rfl

/-- C2 (amended): `JobManager.retryJob` succeeds exactly when the job is
present in `jobHistory` and its retry count is strictly below
`maxRetries = 3`; the terminal status is never inspected, so retry from
`cancelled` or `completed` succeeds just like retry from `failed`, while a
retry at or beyond the maximum is rejected with `Job cannot be retried`.
The `PrintQueue.retryJob` variant instead succeeds exactly when the job's
status is `failed` or `cancelled`, with no retry-count bound. -/
theorem retryJob_characterization (j : HistJob) (st : MemQState) (jobId : Nat) :
    (retryJobJM none = Except.error "Job cannot be retried") ∧
    (j.retryCount < jmMaxRetries →
      retryJobJM (some j) =
        Except.ok { j with retryCount := j.retryCount + 1, status := Status.pending }) ∧
    (jmMaxRetries ≤ j.retryCount →
      retryJobJM (some j) = Except.error "Job cannot be retried") ∧
    (∀ job, st.jobs.find? (fun x => x.id = jobId) = some job →
      ((job.status = Status.failed ∨ job.status = Status.cancelled) →
        retryJobMem st jobId =
          Except.ok ({ job with status := Status.queued, progress := 0, error := none },
            { st with jobs := replaceFirstJob st.jobs jobId
                        ({ job with status := Status.queued, progress := 0, error := none }) })) ∧
      (job.status ≠ Status.failed → job.status ≠ Status.cancelled →
        retryJobMem st jobId = Except.error "Can only retry failed or cancelled jobs")) := by
  refine ⟨rfl, fun hlt => ?_, fun hge => ?_,
    fun job hfound => ⟨fun hstat => ?_, fun hf hc => ?_⟩⟩
  · simp [retryJobJM, Nat.not_le_of_lt hlt]
  · simp [retryJobJM, hge]
  · have : ¬ (job.status ≠ Status.failed ∧ job.status ≠ Status.cancelled) := by
      rcases hstat with h | h <;> simp [h]
    simp [retryJobMem, hfound, this]
  · simp [retryJobMem, hfound, hf, hc]

/-- C2 (witness): the characterization applied at a cancelled history job
with retry count `3` (rejected) and at the failed in-memory job of
`memSt` (re-queued). -/
theorem retryJob_characterization_witness :
    retryJobJM (some { status := Status.cancelled, retryCount := 3 }) =
      Except.error "Job cannot be retried" ∧
    (retryJobMem memSt 3).isOk = true := by
  have h := retryJob_characterization { status := Status.cancelled, retryCount := 3 } memSt 3
  refine ⟨h.2.2.1 (by decide), ?_⟩
  have h2 := (h.2.2.2 failedJob (by decide)).1 (Or.inl (by decide))
  rw [h2]
  rfl

/-- Membership in an insertion is membership in the inserted element or
the original list. -/
theorem mem_insertDesc {x j : PQJob} {l : List PQJob} :
    x ∈ insertDesc j l ↔ x = j ∨ x ∈ l := by
  induction l with
  | nil => simp [insertDesc]
  | cons k ks ih =>
    by_cases h : k.priority ≤ j.priority
    · simp [insertDesc, h]
    · simp [insertDesc, h, ih]
      tauto

/-- Insertion produces a permutation of consing. -/
theorem insertDesc_perm (j : PQJob) (l : List PQJob) :
    (insertDesc j l).Perm (j :: l) := by
  induction l with
  | nil => simp [insertDesc]
  | cons k ks ih =>
    by_cases h : k.priority ≤ j.priority
    · simp [insertDesc, h]
    · simp only [insertDesc, h, if_neg, if_false]
      exact (ih.cons k).trans (List.Perm.swap j k ks)

/-- The stable sort permutes its input. -/
theorem sortByPriorityDesc_perm (l : List PQJob) :
    (sortByPriorityDesc l).Perm l := by
  induction l with
  | nil => simp [sortByPriorityDesc]
  | cons j js ih =>
    exact (insertDesc_perm j (sortByPriorityDesc js)).trans (ih.cons j)

/-- Insertion preserves the priority-descending ordering. -/
theorem pairwise_insertDesc (j : PQJob) (l : List PQJob)
    (h : l.Pairwise (fun a b => b.priority ≤ a.priority)) :
    (insertDesc j l).Pairwise (fun a b => b.priority ≤ a.priority) := by
  induction l with
  | nil => simp [insertDesc]
  | cons k ks ih =>
    rcases List.pairwise_cons.mp h with ⟨hk, hks⟩
    by_cases hle : k.priority ≤ j.priority
    · rw [insertDesc, if_pos hle]
      refine List.pairwise_cons.mpr ⟨?_, h⟩
      intro x hx
      rcases List.mem_cons.mp hx with rfl | hx
      · exact hle
      · exact Nat.le_trans (hk x hx) hle
    · have hjk : j.priority ≤ k.priority := Nat.le_of_lt (Nat.lt_of_not_le hle)
      rw [insertDesc, if_neg hle]
      refine List.pairwise_cons.mpr ⟨?_, ih hks⟩
      intro x hx
      rcases mem_insertDesc.mp hx with rfl | hx
      · exact hjk
      · exact hk x hx

/-- The sorted queue is ordered by priority descending. -/
theorem sortByPriorityDesc_sorted (l : List PQJob) :
    (sortByPriorityDesc l).Pairwise (fun a b => b.priority ≤ a.priority) := by
  induction l with
  | nil => simp [sortByPriorityDesc]
  | cons j js ih => exact pairwise_insertDesc j (sortByPriorityDesc js) ih

/-- The elements of any one priority class are untouched by an
insertion of that class's member (it lands in front of them) and by an
insertion of any other member. -/
theorem filter_insertDesc (j : PQJob) (l : List PQJob) (p : Nat) :
    (insertDesc j l).filter (fun x => decide (x.priority = p)) =
      if j.priority = p then
        j :: l.filter (fun x => decide (x.priority = p))
      else l.filter (fun x => decide (x.priority = p)) := by
  induction l with
  | nil =>
    by_cases hp : j.priority = p <;> simp [insertDesc, hp]
  | cons k ks ih =>
    by_cases hle : k.priority ≤ j.priority
    · rw [insertDesc, if_pos hle]
      by_cases hp : j.priority = p <;> simp [hp]
    · have hkj : j.priority < k.priority := Nat.lt_of_not_le hle
      rw [insertDesc, if_neg hle]
      by_cases hp : j.priority = p
      · have hkp : ¬ k.priority = p := by
          subst hp
          exact fun h => absurd h (Nat.ne_of_gt hkj)
        simp [hp, hkp, ih]
      · by_cases hkp : k.priority = p <;> simp [hp, hkp, ih]

/-- Stability: sorting does not reorder any single priority class. -/
theorem sortByPriorityDesc_stable (l : List PQJob) (p : Nat) :
    (sortByPriorityDesc l).filter (fun x => decide (x.priority = p)) =
      l.filter (fun x => decide (x.priority = p)) := by
  induction l with
  | nil => simp [sortByPriorityDesc]
  | cons j js ih =>
    by_cases hp : j.priority = p <;>
      simp [sortByPriorityDesc, filter_insertDesc, hp, ih]

/-- C3 (counterexample): on the snapshot `[c3JobA, c3JobB]` — equal
priorities, with the later-created job first, as `retryJob`'s re-queueing
can produce — the scheduler's candidate order keeps the array order, so
the two equal-priority jobs are not in `createdAt`-ascending order as the
claim requires. -/
theorem scheduler_order_not_createdAt_ascending :
    sortByPriorityDesc [c3JobA, c3JobB] = [c3JobA, c3JobB] ∧
    c3JobA.priority = c3JobB.priority ∧
    c3JobB.createdAt < c3JobA.createdAt := by
  refine ⟨rfl, rfl, ?_⟩
  decide

/-- C3 (amended): the candidate order is the queue stably sorted by
priority descending: it is a permutation of the snapshot, ordered by
priority descending, and every priority class keeps its snapshot order —
hence N jobs submitted in order with identical priority are selected in
submission order; equal-priority jobs appear in `createdAt`-ascending
order only when the snapshot order agrees with it. -/
theorem scheduler_order_characterization (l : List PQJob) :
    (sortByPriorityDesc l).Pairwise (fun a b => b.priority ≤ a.priority) ∧
    (sortByPriorityDesc l).Perm l ∧
    (∀ p, (sortByPriorityDesc l).filter (fun x => decide (x.priority = p)) =
      l.filter (fun x => decide (x.priority = p))) ∧
    (∀ p, (∀ j ∈ l, j.priority = p) → sortByPriorityDesc l = l) := by
  refine ⟨sortByPriorityDesc_sorted l, sortByPriorityDesc_perm l,
    fun p => sortByPriorityDesc_stable l p, fun p hall => ?_⟩
  have hsortall : ∀ j ∈ sortByPriorityDesc l, j.priority = p := by
    intro j hj
    exact hall j ((sortByPriorityDesc_perm l).mem_iff.mp hj)
  calc sortByPriorityDesc l
      = (sortByPriorityDesc l).filter (fun x => decide (x.priority = p)) := by
        rw [List.filter_eq_self.mpr]
        intro a ha
        simpa using hsortall a ha
    _ = l.filter (fun x => decide (x.priority = p)) := sortByPriorityDesc_stable l p
    _ = l := by
        rw [List.filter_eq_self.mpr]
        intro a ha
        simpa using hall a ha

/-- C3 (witness): the characterization applied to the two-job snapshot:
equal-priority jobs stay in submission order. -/
theorem scheduler_order_characterization_witness :
    sortByPriorityDesc [c3JobA, c3JobB] = [c3JobA, c3JobB] :=
  (scheduler_order_characterization [c3JobA, c3JobB]).2.2.2 1 (by decide)

/-- When at least one printer is suitable, the chosen printer is one of
the suitable ones (the default-printer fallback is not taken). -/
theorem selectFromSuitable_mem (d : Option String) (nc : Bool) (l : List PrinterCfg)
    (h : l ≠ []) : ∃ p ∈ l, selectFromSuitable d nc l = some p.name := by
  cases l with
  | nil => exact absurd rfl h
  | cons s rest =>
    cases nc with
    | true =>
      cases hf : (s :: rest).filter (fun p => p.brand == "epson") with
      | nil => exact ⟨s, List.mem_cons_self s rest, by simp [selectFromSuitable, hf]⟩
      | cons e es =>
        refine ⟨e, List.mem_of_mem_filter (p := fun p => p.brand == "epson") ?_, ?_⟩
        · rw [hf]
          exact List.mem_cons_self e es
        · simp [selectFromSuitable, hf]
    | false =>
      cases hf : (s :: rest).filter (fun p => p.brand == "canon") with
      | nil => exact ⟨s, List.mem_cons_self s rest, by simp [selectFromSuitable, hf]⟩
      | cons c cs =>
        refine ⟨c, List.mem_of_mem_filter (p := fun p => p.brand == "canon") ?_, ?_⟩
        · rw [hf]
          exact List.mem_cons_self c cs
        · simp [selectFromSuitable, hf]

/-- Every printer suitable for a color job is available and
color-capable. -/
theorem mem_suitable_color (printers : List PrinterCfg) (p : PrinterCfg)
    (h : p ∈ suitablePrinters printers true) :
    p ∈ printers ∧ p.available = true ∧ p.capabilities.contains "color" = true := by
  have h2 := List.mem_filter.mp h
  refine ⟨h2.1, ?_, ?_⟩
  · exact (Bool.and_elim_left h2.2)
  · have := Bool.and_elim_right h2.2
    simpa using this

/-- C4 (counterexample): a job with empty color-page list on glossy paper
is not treated as requiring color (only `photo` triggers the color test,
`printerManager.js:192`), and with only the monochrome Canon available
the selection returns that Canon, which lacks the `color` capability. -/
theorem glossy_not_treated_as_color :
    instrPaperType glossyInstr = "glossy" ∧
    needsColor (instrColorPages glossyInstr) (instrPaperType glossyInstr) = false ∧
    selectBestPrinter pmCanonOnly glossyInstr = some "Canon 6565" ∧
    canonPrinter.capabilities.contains "color" = false := by
  refine ⟨rfl, rfl, rfl, rfl⟩

/-- C4 (amended): a job requires color exactly when its color-page list is
non-empty or its paper type is `photo` — glossy paper does not trigger the
color requirement.  When color is required and the suitable set is
non-empty, the selected printer is drawn from it, hence is available and
color-capable; when the suitable set is empty the configured default
printer is returned regardless of its capabilities; and when color is not
required every available printer is eligible. -/
theorem selectBestPrinter_characterization (pm : PMState) (oi : Option Instr) :
    (needsColor (instrColorPages oi) (instrPaperType oi) = true ↔
      instrColorPages oi ≠ [] ∨ instrPaperType oi = "photo") ∧
    (needsColor (instrColorPages oi) (instrPaperType oi) = true →
      jobEligible pm oi ≠ [] →
      ∃ p ∈ pm.availablePrinters, p.available = true ∧
        p.capabilities.contains "color" = true ∧
        selectBestPrinter pm oi = some p.name) ∧
    (jobEligible pm oi = [] → selectBestPrinter pm oi = pm.defaultPrinter) ∧
    (needsColor (instrColorPages oi) (instrPaperType oi) = false →
      jobEligible pm oi = pm.availablePrinters.filter (fun p => p.available)) := by
  refine ⟨?_, fun hnc hne => ?_, fun hempty => ?_, fun hnc => ?_⟩
  · rw [needsColor]
    constructor
    · intro h
      rcases Bool.or_eq_true_iff.mp h with h | h
      · exact Or.inl (by simpa [List.length_pos] using of_decide_eq_true h)
      · exact Or.inr (by simpa using h)
    · intro h
      rcases h with h | h
      · exact Bool.or_eq_true_iff.mpr (Or.inl (decide_eq_true (List.length_pos.mpr h)))
      · exact Bool.or_eq_true_iff.mpr (Or.inr (by simpa using h))
  · rw [jobEligible] at hne
    rw [selectBestPrinter, hnc]
    rw [hnc] at hne
    rcases selectFromSuitable_mem pm.defaultPrinter true _ hne with ⟨p, hmem, hsel⟩
    rcases mem_suitable_color pm.availablePrinters p hmem with ⟨hp, hav, hcol⟩
    exact ⟨p, hp, hav, hcol, hsel⟩
  · rw [jobEligible] at hempty
    rw [selectBestPrinter, hempty]
    rfl
  · rw [jobEligible, hnc, suitablePrinters]
    apply List.filter_congr
    intro p _
    simp

/-- C4 (witness): the amended characterization applied with only the
Epson available and a job with color pages: the Epson is selected and it
is color-capable. -/
theorem selectBestPrinter_characterization_witness :
    ∃ p ∈ pmEpsonOnly.availablePrinters, p.available = true ∧
      p.capabilities.contains "color" = true ∧
      selectBestPrinter pmEpsonOnly (some { colorPages := some [1] }) = some p.name :=
  (selectBestPrinter_characterization pmEpsonOnly
    (some { colorPages := some [1] })).2.1 (by decide) (by decide)

/-- The batch key computes exactly when the instruction record is
present. -/
theorem batchKeyOf_isSome (pm : PMState) (j : Job) :
    (batchKeyOf pm j).isSome = (j.data.instructions).isSome := by
  rw [batchKeyOf]
  cases j.data.instructions <;> rfl

/-- The candidate list after `_createBatches`: jobs with a computable key
are untouched, the others are failed. -/
theorem createBatchesAux_snd (pm : PMState) (jobs : List Job) :
    ∀ acc, (createBatchesAux pm acc jobs).2 =
      jobs.map (fun j => if (batchKeyOf pm j).isSome then j else failBatchJob j) := by
  induction jobs with
  | nil => intro acc; rfl
  | cons j js ih =>
    intro acc
    cases hk : batchKeyOf pm j with
    | none => simp [createBatchesAux, hk, ih]
    | some k => simp [createBatchesAux, hk, ih]

/-- C5 (counterexample): on a candidate list holding a queued job without
an instruction record, `_createBatches` mutates that job — its status
becomes failed and an error is recorded — so planning does not leave every
candidate job's fields identical. -/
theorem createBatches_mutates_instructionless_job :
    (createBatches pmEmpty [noInstrJob]).2 ≠ [noInstrJob] ∧
    (createBatches pmEmpty [noInstrJob]).2 = [failBatchJob noInstrJob] ∧
    (failBatchJob noInstrJob).status = Status.failed ∧
    (failBatchJob noInstrJob).error = some "Failed to determine printer or batch." := by
  refine ⟨?_, rfl, rfl, rfl⟩
  decide

/-- C5 (amended): `_createBatches` never mutates a candidate job whose
batch-key computation succeeds — in particular, when every candidate
carries an instruction record, every candidate's fields are identical
after planning; only a job whose key computation throws (missing
instruction record) is mutated, to `failed` with the fixed error
message. -/
theorem createBatches_frame (pm : PMState) (jobs : List Job)
    (h : ∀ j ∈ jobs, (j.data.instructions).isSome = true) :
    (createBatches pm jobs).2 = jobs := by
  rw [createBatches, createBatchesAux_snd]
  induction jobs with
  | nil => rfl
  | cons j js ih =>
    have hj : (batchKeyOf pm j).isSome = true := by
      rw [batchKeyOf_isSome]
      exact h j (List.mem_cons_self j js)
    rw [List.map_cons, if_pos hj,
      ih (fun x hx => h x (List.mem_cons_of_mem j hx))]

/-- C5 (witness): planning the two fully-specified plain-paper jobs leaves
them unchanged. -/
theorem createBatches_frame_witness :
    (createBatches pmEpsonOnly [c6ColorJob, c6MonoJob]).2 = [c6ColorJob, c6MonoJob] :=
  createBatches_frame pmEpsonOnly [c6ColorJob, c6MonoJob] (by decide)

/-- Appending under a key grows exactly that key's batch by the job. -/
theorem lookupBatch_addToBatch_self (bs : List (String × List Job)) (k : String) (j : Job) :
    lookupBatch (addToBatch bs k j) k = some ((lookupBatch bs k).getD [] ++ [j]) := by
  induction bs with
  | nil => simp [addToBatch, lookupBatch, List.find?]
  | cons b rest ih =>
    obtain ⟨k', l⟩ := b
    by_cases hk : k' = k
    · simp [addToBatch, lookupBatch, List.find?, hk]
    · simpa [addToBatch, lookupBatch, List.find?, hk] using ih

/-- Appending under a key leaves every other key's batch unchanged. -/
theorem lookupBatch_addToBatch_ne (bs : List (String × List Job)) (k k₁ : String)
    (j : Job) (h : ¬ k = k₁) :
    lookupBatch (addToBatch bs k j) k₁ = lookupBatch bs k₁ := by
  induction bs with
  | nil => simp [addToBatch, lookupBatch, List.find?, h]
  | cons b rest ih =>
    obtain ⟨k', l⟩ := b
    by_cases hk : k' = k
    · subst hk
      simp [addToBatch, lookupBatch, List.find?, h]
    · by_cases hk1 : k' = k₁
      · subst hk1
        simp [addToBatch, lookupBatch, List.find?, hk]
      · simp only [addToBatch, if_neg hk]
        simp only [lookupBatch, List.find?] at ih ⊢
        simp [hk1, ih]

/-- Content of each batch built by `_createBatches`, relative to the
accumulated map: the batch at `k` is what was already accumulated
followed by the candidates whose key is `k`, in candidate order. -/
theorem lookupBatch_createBatchesAux (pm : PMState) (jobs : List Job) (k : String) :
    ∀ acc, lookupBatch (createBatchesAux pm acc jobs).1 k =
      (match lookupBatch acc k with
       | some l => some (l ++ jobs.filter (fun j => decide (batchKeyOf pm j = some k)))
       | none =>
         if jobs.filter (fun j => decide (batchKeyOf pm j = some k)) = [] then none
         else some (jobs.filter (fun j => decide (batchKeyOf pm j = some k)))) := by
  induction jobs with
  | nil =>
    intro acc
    cases h : lookupBatch acc k <;> simp [createBatchesAux, h]
  | cons j js ih =>
    intro acc
    cases hbk : batchKeyOf pm j with
    | none =>
      have hpred : (batchKeyOf pm j = some k) = False := by
        simp [hbk]
      simp only [createBatchesAux, hbk, List.filter_cons, hpred, decide_False,
        Bool.false_eq_true, if_false]
      exact ih acc
    | some k₀ =>
      by_cases hkk : k₀ = k
      · subst hkk
        have hpred : (batchKeyOf pm j = some k₀) = True := by simp [hbk]
        simp only [createBatchesAux, hbk, List.filter_cons, hpred, decide_True, if_true]
        rw [ih (addToBatch acc k₀ j), lookupBatch_addToBatch_self]
        cases h : lookupBatch acc k₀ <;> simp [h]
      · have hpred : (some k₀ = some k) = False := by simp [hkk]
        simp only [createBatchesAux, hbk, List.filter_cons, hpred, decide_False,
          Bool.false_eq_true, if_false]
        rw [ih (addToBatch acc k₀ j), lookupBatch_addToBatch_ne acc k₀ k j hkk]

/-- A color-requiring job's suitable set is contained in any
no-color-requirement suitable set over the same printers. -/
theorem suitable_true_subset (printers : List PrinterCfg) (p : PrinterCfg)
    (h : p ∈ suitablePrinters printers true) : p ∈ suitablePrinters printers false := by
  have h2 := List.mem_filter.mp h
  refine List.mem_filter.mpr ⟨h2.1, ?_⟩
  have := Bool.and_elim_left h2.2
  simp [this]

/-- Any two non-empty suitable sets over the same printer registry
intersect: requirements are never mutually exclusive. -/
theorem suitable_not_disjoint (printers : List PrinterCfg) (nc₁ nc₂ : Bool)
    (h₁ : suitablePrinters printers nc₁ ≠ [])
    (h₂ : suitablePrinters printers nc₂ ≠ []) :
    ∃ p, p ∈ suitablePrinters printers nc₁ ∧ p ∈ suitablePrinters printers nc₂ := by
  cases nc₁ with
  | true =>
    rcases List.exists_mem_of_ne_nil _ h₁ with ⟨p, hp⟩
    cases nc₂ with
    | true => exact ⟨p, hp, hp⟩
    | false => exact ⟨p, hp, suitable_true_subset printers p hp⟩
  | false =>
    cases nc₂ with
    | true =>
      rcases List.exists_mem_of_ne_nil _ h₂ with ⟨p, hp⟩
      exact ⟨p, suitable_true_subset printers p hp, hp⟩
    | false =>
      rcases List.exists_mem_of_ne_nil _ h₁ with ⟨p, hp⟩
      exact ⟨p, hp, hp⟩

/-- C6: every batch produced by `_createBatches` consists exactly of the
candidates whose compatibility key is the batch's key, in candidate
order; and no batch — indeed no pair of candidates at all — joins two
jobs with mutually exclusive printer requirements: whenever both jobs'
eligible printer sets are non-empty, the sets intersect. -/
theorem batches_share_key_in_order (pm : PMState) (jobs : List Job) (k : String)
    (l : List Job)
    (h : lookupBatch (createBatches pm jobs).1 k = some l) :
    l = jobs.filter (fun j => decide (batchKeyOf pm j = some k)) ∧
    ∀ j₁ ∈ l, ∀ j₂ ∈ l,
      jobEligible pm j₁.data.instructions ≠ [] →
      jobEligible pm j₂.data.instructions ≠ [] →
      ∃ p, p ∈ jobEligible pm j₁.data.instructions ∧
        p ∈ jobEligible pm j₂.data.instructions := by
  have hl : l = jobs.filter (fun j => decide (batchKeyOf pm j = some k)) := by
    rw [createBatches, lookupBatch_createBatchesAux pm jobs k []] at h
    have hnone : lookupBatch ([] : List (String × List Job)) k = none := rfl
    rw [hnone] at h
    by_cases hf : jobs.filter (fun j => decide (batchKeyOf pm j = some k)) = []
    · rw [if_pos hf] at h
      exact Option.noConfusion h
    · rw [if_neg hf] at h
      exact (Option.some.inj h).symm
  refine ⟨hl, fun j₁ _ j₂ _ h₁ h₂ => ?_⟩
  exact suitable_not_disjoint pm.availablePrinters _ _ h₁ h₂

/-- C6 (witness): with only the Epson available, the color job and the
monochrome plain-paper job land in the same batch
`Epson 3250:plain:normal`, in candidate order, and their eligible printer
sets intersect. -/
theorem batches_share_key_in_order_witness :
    [c6ColorJob, c6MonoJob] =
      ([c6ColorJob, c6MonoJob]).filter
        (fun j => decide (batchKeyOf pmEpsonOnly j = some c6Key)) ∧
    (∃ p, p ∈ jobEligible pmEpsonOnly c6ColorJob.data.instructions ∧
      p ∈ jobEligible pmEpsonOnly c6MonoJob.data.instructions) := by
  have h := batches_share_key_in_order pmEpsonOnly [c6ColorJob, c6MonoJob] c6Key
    [c6ColorJob, c6MonoJob] (by decide)
  refine ⟨h.1, h.2 c6ColorJob (by decide) c6MonoJob (by decide) (by decide) (by decide)⟩

/-- C7: within an executing batch, a job whose document resolution fails
is marked failed with the error recorded, while every other job of the
batch — in particular any later one — is still executed, and a later job
whose resolution and print succeed ends completed with progress 100. -/
theorem batch_failure_isolated (env : ExecEnv) (batch : List Job) (i k : Nat)
    (bi bk : Job) (p r : String)
    (hik : i < k)
    (hbi : batch[i]? = some bi) (hbk : batch[k]? = some bk)
    (hfail : env.document bi.data.fileId = none)
    (hdoc : env.document bk.data.fileId = some p)
    (hprint : env.print p bk.data.instructions = Except.ok r) :
    ((processBatchJobs env batch)[i]?).map Job.status = some Status.failed ∧
    ((processBatchJobs env batch)[i]?).bind Job.error = some "Document not found" ∧
    ((processBatchJobs env batch)[k]?).map Job.status = some Status.completed ∧
    ((processBatchJobs env batch)[k]?).map Job.progress = some 100 := by
  have hi : (processBatchJobs env batch)[i]? = some (executeJob env bi) := by
    rw [processBatchJobs, List.getElem?_map, hbi]
    rfl
  have hk2 : (processBatchJobs env batch)[k]? = some (executeJob env bk) := by
    rw [processBatchJobs, List.getElem?_map, hbk]
    rfl
  rw [hi, hk2]
  refine ⟨?_, ?_, ?_, ?_⟩ <;> simp [executeJob, hfail, hdoc, hprint]

/-- C7 (witness): in the two-job batch `[badDocJob, goodDocJob]` under
`envGoodOnly`, the first job fails document resolution and the second
still completes. -/
theorem batch_failure_isolated_witness :
    ((processBatchJobs envGoodOnly [badDocJob, goodDocJob])[0]?).map Job.status =
      some Status.failed ∧
    ((processBatchJobs envGoodOnly [badDocJob, goodDocJob])[0]?).bind Job.error =
      some "Document not found" ∧
    ((processBatchJobs envGoodOnly [badDocJob, goodDocJob])[1]?).map Job.status =
      some Status.completed ∧
    ((processBatchJobs envGoodOnly [badDocJob, goodDocJob])[1]?).map Job.progress =
      some 100 :=
  batch_failure_isolated envGoodOnly [badDocJob, goodDocJob] 0 1 badDocJob goodDocJob
    "/tmp/good.pdf" "sent" (by decide) rfl rfl (by decide) (by decide) rfl

/-- C8: both scheduling ticks are single-flight: invoked while the
`isProcessing` flag of a previous invocation is still held,
`_processBatches` returns its state unchanged and builds no batch, and
`processNextJob` returns its state unchanged — no job is selected or
executed, the tick is skipped, not queued. -/
theorem tick_single_flight (env₁ : ExecEnv) (pm : PMState) (st₁ : BatchQState)
    (env₂ : ExecEnv) (st₂ : PQState)
    (h₁ : st₁.isProcessing = true) (h₂ : st₂.isProcessing = true) :
    processBatchesTick env₁ pm st₁ = (st₁, []) ∧
    processNextJobTick env₂ st₂ = st₂ := by
  constructor
  · rw [processBatchesTick, if_pos h₁]
  · rw [processNextJobTick]
    simp [h₂]

/-- C8 (witness): the two busy states are returned unchanged by their
ticks. -/
theorem tick_single_flight_witness :
    processBatchesTick envGoodOnly pmEmpty busyBatchSt = (busyBatchSt, []) ∧
    processNextJobTick envGoodOnly busyPQSt = busyPQSt :=
  tick_single_flight envGoodOnly pmEmpty busyBatchSt envGoodOnly busyPQSt rfl rfl

/-- C9 (counterexample): neither cited `addJob` returns the record as
`queued`: the in-memory variant's un-awaited `processJob` kick
(`queue/printQueue.js:28,42`) and the persistent variant's eager
`processNextJob` kick on an idle queue (`print/queue.js:87-89,184`) both
set the returned, stored record to `processing` before `addJob`
returns. -/
theorem addJob_returns_processing_not_queued :
    (addJobMem memInit { fileId := "f", instructions := none }).1.status =
      Status.processing ∧
    (addJobPQ pqInit "job1" 0 { fileId := "f" }).1.status = Status.processing ∧
    Status.processing ≠ Status.queued := by
  exact ⟨rfl, rfl, by decide⟩

/-- The persistent `addJob` returns either the freshly built item or
that item flipped to `processing` by the eager kick. -/
theorem addJobPQFull_fst (pst : PQState) (newId : String) (now : Nat)
    (freq : FullJobReq) :
    (addJobPQFull pst newId now freq).1 = newPQJob newId now freq ∨
    (addJobPQFull pst newId now freq).1 =
      { newPQJob newId now freq with status := Status.processing } := by
  by_cases hp : pst.isProcessing = true
  · exact Or.inl (by simp only [addJobPQFull, if_pos hp])
  · cases hs : sortByPriorityDesc (pst.queue ++ [newPQJob newId now freq]) with
    | nil => exact Or.inl (by simp only [addJobPQFull, if_neg hp, hs])
    | cons j rest =>
      by_cases hj : j = newPQJob newId now freq
      · exact Or.inr (by simp only [addJobPQFull, if_neg hp, hs, if_pos hj])
      · exact Or.inl (by simp only [addJobPQFull, if_neg hp, hs, if_neg hj])

/-- C9 (amended): `addJob` synchronously stores the new record with
progress 0 and returns that stored record, but never as `queued`: the
in-memory variant creates it `queued` and its un-awaited `processJob`
marks it `processing` before returning; the persistent variant builds it
from the generated fields overridden by the request's spread fields
(`JobManager` overrides id and status, for example `created`), returns
it with its creation status while a run is in flight, and otherwise
eagerly kicks `processNextJob`, which marks the sorted head `processing`
before `addJob` returns — the new job itself whenever it heads the
sorted queue, in particular on an empty queue. -/
theorem addJob_characterization (st : MemQState) (jd : JobData) (pst : PQState)
    (newId : String) (now : Nat) (freq : FullJobReq)
    (hfresh : ∀ j ∈ st.jobs, j.id ≠ st.nextJobId) :
    ((addJobMem st jd).1.status = Status.processing ∧
     (addJobMem st jd).1.progress = 0 ∧
     (addJobMem st jd).1.id = st.nextJobId ∧
     (addJobMem st jd).2.jobs.find? (fun j => j.id = st.nextJobId) =
       some (addJobMem st jd).1) ∧
    ((addJobPQFull pst newId now freq).1.progress = 0 ∧
     (addJobPQFull pst newId now freq).1.id = freq.id.getD newId) ∧
    (pst.isProcessing = true →
      (addJobPQFull pst newId now freq).1.status = freq.status.getD Status.pending ∧
      (addJobPQFull pst newId now freq).2.queue =
        pst.queue ++ [newPQJob newId now freq]) ∧
    (pst.isProcessing = false → pst.queue = [] →
      (addJobPQFull pst newId now freq).1.status = Status.processing ∧
      (addJobPQFull pst newId now freq).2.queue =
        [{ newPQJob newId now freq with status := Status.processing }]) := by
  refine ⟨⟨rfl, rfl, rfl, ?_⟩, ?_, fun hbusy => ?_, fun hidle hq => ?_⟩
  · have hnone : st.jobs.find? (fun j => j.id = st.nextJobId) = none := by
      rw [List.find?_eq_none]
      intro x hx
      simpa using hfresh x hx
    simp only [addJobMem, List.find?_append, hnone, Option.none_or]
    simp [List.find?]
  · rcases addJobPQFull_fst pst newId now freq with hf | hf <;> rw [hf] <;> exact ⟨rfl, rfl⟩
  · constructor
    · simp only [addJobPQFull, if_pos hbusy, newPQJob]
    · simp only [addJobPQFull, if_pos hbusy]
  · have hsort : sortByPriorityDesc (pst.queue ++ [newPQJob newId now freq]) =
        [newPQJob newId now freq] := by
      rw [hq]
      rfl
    have hsort1 : sortByPriorityDesc [newPQJob newId now freq] =
        [newPQJob newId now freq] := rfl
    constructor
    · simp [addJobPQFull, hidle, hsort]
    · simp [addJobPQFull, kickQueue, hidle, hq, hsort, hsort1,
        sortByPriorityDesc, insertDesc, updateJobStatusPQ, List.find?,
        replaceFirstPQ, newPQJob]

/-- C9 (witness): the characterization exercised at the populated
in-memory state `memSt`, at a busy persistent queue receiving a
`JobManager`-shaped record (returned with its overridden status
`created` and overridden id), and at the idle empty queue (returned
already `processing`). -/
theorem addJob_characterization_witness :
    (addJobMem memSt { fileId := "w", instructions := none }).2.jobs.find?
      (fun j => j.id = memSt.nextJobId) =
      some (addJobMem memSt { fileId := "w", instructions := none }).1 ∧
    (addJobPQFull busyPQSt "w1" 5 jmFullReq).1.status = Status.created ∧
    (addJobPQFull busyPQSt "w1" 5 jmFullReq).1.id = "jm1" ∧
    (addJobPQFull pqInit "w2" 6 (JobReq.toFull { fileId := "w" })).1.status =
      Status.processing := by
  have h1 := addJob_characterization memSt { fileId := "w", instructions := none }
    busyPQSt "w1" 5 jmFullReq (by decide)
  have h2 := addJob_characterization memSt { fileId := "w", instructions := none }
    pqInit "w2" 6 (JobReq.toFull { fileId := "w" }) (by decide)
  exact ⟨h1.1.2.2.2, (h1.2.2.1 rfl).1, h1.2.1.2, (h2.2.2.2 rfl rfl).1⟩

/-- Replacing the first match can only introduce the replacement. -/
theorem mem_replaceFirstPQ {x j : PQJob} {jobId : String} :
    ∀ {l : List PQJob}, x ∈ replaceFirstPQ l jobId j → x ∈ l ∨ x = j := by
  intro l
  induction l with
  | nil =>
    intro hx
    exact absurd hx (List.not_mem_nil x)
  | cons y ys ih =>
    intro hx
    by_cases hy : y.id = jobId
    · rw [replaceFirstPQ, if_pos hy] at hx
      rcases List.mem_cons.mp hx with rfl | hmem
      · exact Or.inr rfl
      · exact Or.inl (List.mem_cons_of_mem y hmem)
    · rw [replaceFirstPQ, if_neg hy] at hx
      rcases List.mem_cons.mp hx with rfl | hmem
      · exact Or.inl (List.mem_cons_self x ys)
      · rcases ih hmem with h1 | h2
        · exact Or.inl (List.mem_cons_of_mem y h1)
        · exact Or.inr h2

/-- The status update preserves the no-terminal-in-queue invariant for
every target status: a terminal status removes the job, any other status
stays non-terminal. -/
theorem noTerminal_updateJobStatus (st : PQState) (jobId : String) (s : Status)
    (err res : Option String) (h : NoTerminalQueue st) :
    NoTerminalQueue (updateJobStatusPQ st jobId s err res).1 := by
  intro j hj
  cases hf : st.queue.find? (fun x => x.id = jobId) with
  | none =>
    simp only [updateJobStatusPQ, hf] at hj
    exact h j hj
  | some job =>
    by_cases hterm : s = Status.completed ∨ s = Status.failed
    · simp only [updateJobStatusPQ, hf, if_pos hterm] at hj
      have hj2 := List.mem_filter.mp hj
      rcases mem_replaceFirstPQ hj2.1 with hmem | heq
      · exact h j hmem
      · exfalso
        have hid : job.id = jobId := by simpa using List.find?_some hf
        have hne : ¬ j.id = jobId := by simpa using hj2.2
        apply hne
        rw [heq]
        exact hid
    · simp only [updateJobStatusPQ, hf, if_neg hterm] at hj
      rcases mem_replaceFirstPQ hj with hmem | heq
      · exact h j hmem
      · push_neg at hterm
        rw [heq]
        exact ⟨hterm.1, hterm.2⟩

/-- The progress update leaves every status unchanged. -/
theorem noTerminal_updateJobProgress (st : PQState) (jobId : String) (p : Nat)
    (h : NoTerminalQueue st) : NoTerminalQueue (updateJobProgressPQ st jobId p) := by
  intro j hj
  cases hf : st.queue.find? (fun x => x.id = jobId) with
  | none =>
    simp only [updateJobProgressPQ, hf] at hj
    exact h j hj
  | some job =>
    simp only [updateJobProgressPQ, hf] at hj
    rcases mem_replaceFirstPQ hj with hmem | heq
    · exact h j hmem
    · have hjob := h job (List.mem_of_find?_eq_some hf)
      rw [heq]
      exact hjob

/-- The synchronous kick of an eager `processNextJob` call preserves the
invariant: it only sorts the queue and marks the head `processing`. -/
theorem noTerminal_kickQueue (st : PQState) (h : NoTerminalQueue st) :
    NoTerminalQueue (kickQueue st) := by
  rw [kickQueue]
  by_cases hg : (st.isProcessing || st.queue.isEmpty) = true
  · rw [if_pos hg]
    exact h
  · rw [if_neg hg]
    have hsorted : NoTerminalQueue { st with queue := sortByPriorityDesc st.queue } := by
      intro j hj
      exact h j ((sortByPriorityDesc_perm st.queue).mem_iff.mp hj)
    cases hs : sortByPriorityDesc st.queue with
    | nil =>
      intro j hj
      exact h j hj
    | cons j₀ rest =>
      rw [hs] at hsorted
      intro j hj
      exact noTerminal_updateJobStatus { st with queue := j₀ :: rest }
        j₀.id Status.processing none none hsorted j hj

/-- Job execution — a chain of status and progress updates — preserves
the invariant. -/
theorem noTerminal_processJob (env : ExecEnv) (st : PQState) (j : PQJob)
    (h : NoTerminalQueue st) : NoTerminalQueue (processJobPQ env st j) := by
  cases hd : env.document j.fileId with
  | none =>
    simp only [processJobPQ, hd]
    exact noTerminal_updateJobStatus _ _ _ _ _
      (noTerminal_updateJobStatus _ _ _ _ _ h)
  | some path =>
    cases hp : env.print path (some (printOptionsOf j)) with
    | error msg =>
      simp only [processJobPQ, hd, hp]
      exact noTerminal_updateJobStatus _ _ _ _ _
        (noTerminal_updateJobProgress _ _ _
          (noTerminal_updateJobProgress _ _ _
            (noTerminal_updateJobStatus _ _ _ _ _ h)))
    | ok res =>
      simp only [processJobPQ, hd, hp]
      exact noTerminal_updateJobStatus _ _ _ _ _
        (noTerminal_updateJobProgress _ _ _
          (noTerminal_updateJobProgress _ _ _
            (noTerminal_updateJobProgress _ _ _
              (noTerminal_updateJobStatus _ _ _ _ _ h))))

/-- The scheduling tick preserves the invariant. -/
theorem noTerminal_tick (env : ExecEnv) (st : PQState) (h : NoTerminalQueue st) :
    NoTerminalQueue (processNextJobTick env st) := by
  rw [processNextJobTick]
  by_cases hg : (st.isProcessing || st.queue.isEmpty) = true
  · rw [if_pos hg]
    exact h
  · rw [if_neg hg]
    have hsorted : NoTerminalQueue { st with queue := sortByPriorityDesc st.queue } := by
      intro j hj
      exact h j ((sortByPriorityDesc_perm st.queue).mem_iff.mp hj)
    cases hs : sortByPriorityDesc st.queue with
    | nil =>
      intro j hj
      rw [hs] at hsorted
      exact hsorted j hj
    | cons j₀ rest =>
      rw [hs] at hsorted
      intro j hj
      exact noTerminal_processJob env { st with queue := j₀ :: rest } j₀ hsorted j hj

/-- Every queue operation preserves the invariant. -/
theorem noTerminal_applyOp (st : PQState) (op : PQOp) (h : NoTerminalQueue st) :
    NoTerminalQueue (applyOp st op) := by
  cases op with
  | add newId now req =>
    have hpend : NoTerminalQueue
        { st with queue := st.queue ++ [newPQJob newId now req.toFull] } := by
      intro x hx
      rcases List.mem_append.mp hx with hmem | hmem
      · exact h x hmem
      · rw [List.mem_singleton.mp hmem]
        exact ⟨fun hc => Status.noConfusion hc, fun hc => Status.noConfusion hc⟩
    intro j hj
    by_cases hp : st.isProcessing = true
    · simp only [applyOp, addJobPQ, addJobPQFull, if_pos hp] at hj
      exact hpend j hj
    · simp only [applyOp, addJobPQ, addJobPQFull, if_neg hp] at hj
      exact noTerminal_kickQueue _ hpend j hj
  | updStatus id s err res => exact noTerminal_updateJobStatus st id s err res h
  | updProgress id p => exact noTerminal_updateJobProgress st id p h
  | retry id =>
    intro j hj
    cases hf : st.completedJobs.find? (fun x => x.id = id) with
    | none =>
      simp only [applyOp, retryJobPQ, hf] at hj
      exact h j hj
    | some job =>
      simp only [applyOp, retryJobPQ, hf] at hj
      rcases List.mem_append.mp hj with hmem | hmem
      · exact h j hmem
      · rw [List.mem_singleton.mp hmem]
        exact ⟨fun hc => Status.noConfusion hc, fun hc => Status.noConfusion hc⟩
  | remove id =>
    intro j hj
    simp only [applyOp, removeJobPQ] at hj
    exact h j (List.mem_of_mem_filter hj)
  | accept id acceptedBy =>
    intro j hj
    cases hf : st.queue.find? (fun x => x.id = id) with
    | none =>
      simp only [applyOp, acceptJobPQ, hf] at hj
      exact h j hj
    | some job =>
      by_cases hstat : job.status = Status.pending ∨ job.status = Status.queued
      · simp only [applyOp, acceptJobPQ, hf, if_pos hstat] at hj
        rcases mem_replaceFirstPQ hj with hmem | heq
        · exact h j hmem
        · rw [heq]
          exact ⟨fun hc => Status.noConfusion hc, fun hc => Status.noConfusion hc⟩
      · simp only [applyOp, acceptJobPQ, hf, if_neg hstat] at hj
        exact h j hj
  | cleanup now maxAge =>
    intro j hj
    simp only [applyOp, cleanupOldJobsPQ] at hj
    exact h j hj
  | tick env => exact noTerminal_tick env st h

/-- The invariant holds after any operation sequence from any state
satisfying it. -/
theorem noTerminal_applyOps (ops : List PQOp) :
    ∀ st, NoTerminalQueue st → NoTerminalQueue (applyOps st ops) := by
  induction ops with
  | nil => exact fun st h => h
  | cons op ops ih => exact fun st h => ih _ (noTerminal_applyOp st op h)

/-- The initial empty queue satisfies the invariant. -/
theorem noTerminal_init : NoTerminalQueue pqInit := by
  intro j hj
  exact absurd hj (List.not_mem_nil j)

/-- A terminal status update removes the job from the active queue and
archives exactly the updated record. -/
theorem updateJobStatus_terminal_moves (st : PQState) (jobId : String) (s : Status)
    (err res : Option String) (job : PQJob)
    (hterm : s = Status.completed ∨ s = Status.failed)
    (hfind : st.queue.find? (fun x => x.id = jobId) = some job) :
    (updateJobStatusPQ st jobId s err res).1.queue.filter
      (fun x => decide (x.id = jobId)) = [] ∧
    (updateJobStatusPQ st jobId s err res).1.completedJobs =
      st.completedJobs ++ [{ job with status := s, error := err, result := res }] := by
  constructor
  · simp only [updateJobStatusPQ, hfind, if_pos hterm]
    rw [List.filter_filter, List.filter_eq_nil_iff]
    intro a _
    by_cases ha : a.id = jobId <;> simp [ha]
  · simp only [updateJobStatusPQ, hfind, if_pos hterm]

/-- C10: after any operation sequence the active queue holds no completed
and no failed job — every `updateJobStatus` that sets a terminal status
removes the job from the active queue and appends the updated record to
`completedJobs` — and `getStats` counts pending and processing over the
active queue only and completed and failed over `completedJobs` only. -/
theorem queue_terminal_separation (ops : List PQOp) (st : PQState) (jobId : String)
    (s : Status) (err res : Option String) (job : PQJob)
    (hterm : s = Status.completed ∨ s = Status.failed)
    (hfind : st.queue.find? (fun x => x.id = jobId) = some job) :
    NoTerminalQueue (applyOps pqInit ops) ∧
    (updateJobStatusPQ st jobId s err res).1.queue.filter
      (fun x => decide (x.id = jobId)) = [] ∧
    (updateJobStatusPQ st jobId s err res).1.completedJobs =
      st.completedJobs ++ [{ job with status := s, error := err, result := res }] ∧
    (getStats (applyOps pqInit ops)).pending =
      ((applyOps pqInit ops).queue.filter
        (fun j => decide (j.status = Status.pending))).length ∧
    (getStats (applyOps pqInit ops)).processing =
      ((applyOps pqInit ops).queue.filter
        (fun j => decide (j.status = Status.processing))).length ∧
    (getStats (applyOps pqInit ops)).completed =
      ((applyOps pqInit ops).completedJobs.filter
        (fun j => decide (j.status = Status.completed))).length ∧
    (getStats (applyOps pqInit ops)).failed =
      ((applyOps pqInit ops).completedJobs.filter
        (fun j => decide (j.status = Status.failed))).length := by
  have hm := updateJobStatus_terminal_moves st jobId s err res job hterm hfind
  exact ⟨noTerminal_applyOps ops pqInit noTerminal_init, hm.1, hm.2, rfl, rfl, rfl, rfl⟩

/-- C10 (witness): completing job `a` in the one-job state `c10St`
empties the active queue of it and archives the completed record. -/
theorem queue_terminal_separation_witness :
    (updateJobStatusPQ c10St "a" Status.completed none none).1.queue.filter
      (fun x => decide (x.id = "a")) = [] ∧
    (updateJobStatusPQ c10St "a" Status.completed none none).1.completedJobs =
      [{ c10Job with status := Status.completed, error := none, result := none }] := by
  have h := queue_terminal_separation c10Ops c10St "a" Status.completed none none c10Job
    (Or.inl rfl) (by decide)
  exact ⟨h.2.1, by simpa [c10St] using h.2.2.1⟩

end Inkoro
